import Mathlib

/-!
Shallow embedding of the Chimera agent runtime (ZkSight repository):
resilience primitives (retry with backoff, circuit breaker), the
subscriber ack/nack discipline, the base agent's correlation registry,
the session context manager's extraction logic, and the alert engine.

Python floats are modelled as rationals (ℚ), timestamps as rationals or
integers, Python dicts as insertion-ordered association lists, and
raised exceptions as `Except` values.
-/

namespace Chimera

/-! ### Errors (src/packages/agents/src/errors.py) -/

/-- Subset of the standardized error codes used by the resilience layer. -/
inductive ErrorCode
  | DATA_SOURCE_UNAVAILABLE
  | DATA_SOURCE_TIMEOUT
  | INTERNAL_SERVER_ERROR
deriving DecidableEq, Repr

/-- `ChimeraError`: every domain error carries a code and a retryable flag
(message/details dropped as proof-irrelevant). -/
structure ChimeraError where
  code : ErrorCode
  retryable : Bool
deriving DecidableEq, Repr

/-- A raised Python exception: either a domain `ChimeraError` or any other
exception (`generic`). -/
inductive PyExc
  | chimera (e : ChimeraError)
  | generic
deriving DecidableEq, Repr

/-! ### Retry (src/packages/agents/src/resilience.py) -/

inductive RetryStrategy
  | exponential
  | linear
  | constant
deriving DecidableEq, Repr

/-- `exponential_backoff`: `delay = min(base_delay * 2**attempt, max_delay)`,
then optional jitter `delay += uniform(-0.25*delay, 0.25*delay)` (the sampled
value is the oracle argument `u`), then `max(0, delay)`. -/
def exponential_backoff (attempt : Nat) (base_delay max_delay : ℚ) (jitter : Bool)
    (u : ℚ) : ℚ :=
  let delay := min (base_delay * 2 ^ attempt) max_delay
  let delay := if jitter then delay + u else delay
  max 0 delay

/-- `linear_backoff`: `min(base_delay * (attempt + 1), max_delay)`. -/
def linear_backoff (attempt : Nat) (base_delay max_delay : ℚ) : ℚ :=
  min (base_delay * (attempt + 1)) max_delay

/-- `constant_backoff`: returns the delay unchanged. -/
def constant_backoff (delay : ℚ) : ℚ :=
  delay

/-- `RetryConfig` (retryable_exceptions left at its default `(Exception,)`,
which catches every modelled exception). -/
structure RetryConfig where
  max_attempts : Nat
  strategy : RetryStrategy
  base_delay : ℚ
  max_delay : ℚ
  jitter : Bool
deriving DecidableEq, Repr

/-- `RetryConfig.get_delay`; `u` is the jitter sample drawn at this attempt. -/
def RetryConfig.get_delay (cfg : RetryConfig) (attempt : Nat) (u : ℚ) : ℚ :=
  match cfg.strategy with
  | .exponential => exponential_backoff attempt cfg.base_delay cfg.max_delay cfg.jitter u
  | .linear => linear_backoff attempt cfg.base_delay cfg.max_delay
  | .constant => constant_backoff cfg.base_delay

/-- Observable outcome of one run of the retry wrapper: the returned value or
the propagated exception (`Except.error none` models Python's final
`raise last_exception` when no attempt ever ran), the number of times the
wrapped function was invoked, and the list of sleep durations in order. -/
structure RetryRun (α : Type) where
  result : Except (Option PyExc) α
  calls : Nat
  sleeps : List ℚ
deriving Repr

/-- A ChimeraError with `retryable = False` is re-raised immediately
(`isinstance(e, ChimeraError) and not e.retryable`). -/
def nonRetryable : PyExc → Bool
  | .chimera e => !e.retryable
  | .generic => false

/-- The body of `retry`'s `sync_wrapper` loop, starting at attempt number
`attempt` with `fuel = max_attempts - attempt` iterations left. The wrapped
function is modelled by its outcome at each attempt, `f : Nat → Except PyExc α`;
`us n` is the jitter value sampled if a delay is computed at attempt `n`. -/
def retryAux (cfg : RetryConfig) (f : Nat → Except PyExc α) (us : Nat → ℚ)
    (attempt : Nat) : (fuel : Nat) → RetryRun α
  | 0 => { result := .error none, calls := 0, sleeps := [] }
  | fuel + 1 =>
    match f attempt with
    | .ok a => { result := .ok a, calls := 1, sleeps := [] }
    | .error e =>
      if nonRetryable e then
        { result := .error (some e), calls := 1, sleeps := [] }
      else if 0 < fuel then
        let d := cfg.get_delay attempt (us attempt)
        let rest := retryAux cfg f us (attempt + 1) fuel
        { result := rest.result, calls := rest.calls + 1, sleeps := d :: rest.sleeps }
      else
        { result := .error (some e), calls := 1, sleeps := [] }

/-- One run of the `retry`-wrapped function (`sync_wrapper`). -/
def retryCall (cfg : RetryConfig) (f : Nat → Except PyExc α) (us : Nat → ℚ) :
    RetryRun α :=
  retryAux cfg f us 0 cfg.max_attempts

/-! ### Circuit breaker (src/packages/agents/src/resilience.py) -/

inductive CircuitState
  | closed
  | «open»
  | half_open
deriving DecidableEq, Repr

/-- `CircuitBreaker` mutable state together with its configuration. -/
structure CircuitBreaker where
  failure_threshold : Nat
  recovery_timeout : ℚ
  state : CircuitState
  failure_count : Nat
  last_failure_time : Option ℚ
  success_count : Nat
deriving DecidableEq, Repr

/-- `CircuitBreaker._should_attempt_reset`, with `datetime.now()` passed in as
`now` (seconds). -/
def CircuitBreaker.should_attempt_reset (cb : CircuitBreaker) (now : ℚ) : Bool :=
  if cb.state ≠ CircuitState.«open» then
    false
  else
    match cb.last_failure_time with
    | none => false
    | some t => decide (cb.recovery_timeout ≤ now - t)

/-- `CircuitBreaker._on_success`. -/
def CircuitBreaker.on_success (cb : CircuitBreaker) : CircuitBreaker :=
  if cb.state = CircuitState.half_open then
    let sc := cb.success_count + 1
    if 2 ≤ sc then
      { cb with state := .closed, failure_count := 0, success_count := sc }
    else
      { cb with success_count := sc }
  else
    { cb with failure_count := 0 }

/-- `CircuitBreaker._on_failure`, with `datetime.now()` passed in as `now`. -/
def CircuitBreaker.on_failure (cb : CircuitBreaker) (now : ℚ) : CircuitBreaker :=
  let cb' := { cb with failure_count := cb.failure_count + 1,
                       last_failure_time := some now }
  if cb'.state = CircuitState.half_open then
    { cb' with state := .«open» }
  else if cb'.failure_threshold ≤ cb'.failure_count then
    { cb' with state := .«open» }
  else
    cb'

/-- The reset check at the top of `CircuitBreaker.call`: if
`_should_attempt_reset()` holds, enter HALF_OPEN and zero the success count. -/
def CircuitBreaker.check_reset (cb : CircuitBreaker) (now : ℚ) : CircuitBreaker :=
  if cb.should_attempt_reset now then
    { cb with state := .half_open, success_count := 0 }
  else
    cb

/-- Behaviour of the wrapped callable on one invocation. -/
inductive CallResult
  | success
  | failure
deriving DecidableEq, Repr

/-- Observable outcome of `CircuitBreaker.call`: the wrapped function returned,
it raised (and the error was re-raised), or the breaker rejected the call
without invoking the function, raising the given `DataSourceError`. -/
inductive CallOutcome
  | returned
  | raised
  | rejected (e : ChimeraError)
deriving DecidableEq, Repr

/-- `CircuitBreaker.call`: reset check, fail-fast if OPEN (raising a retryable
`DATA_SOURCE_UNAVAILABLE` error), otherwise invoke and record the outcome. -/
def CircuitBreaker.call (cb : CircuitBreaker) (now : ℚ) (res : CallResult) :
    CallOutcome × CircuitBreaker :=
  let cb := cb.check_reset now
  if cb.state = CircuitState.«open» then
    (.rejected { code := .DATA_SOURCE_UNAVAILABLE, retryable := true }, cb)
  else
    match res with
    | .success => (.returned, cb.on_success)
    | .failure => (.raised, cb.on_failure now)

/-! ### Python dict as insertion-ordered association list -/

/-- `d[k] = v` on a Python dict: update in place if the key is present,
otherwise append at the end (insertion order). -/
def dictInsert (m : List (String × β)) (k : String) (v : β) : List (String × β) :=
  if m.any (fun p => p.1 == k) then
    m.map (fun p => if p.1 == k then (k, v) else p)
  else
    m ++ [(k, v)]

/-- `del d[k]` (guarded by a membership check in the source). -/
def dictRemove (m : List (String × β)) (k : String) : List (String × β) :=
  m.filter (fun p => p.1 != k)

/-! ### Subscriber ack/nack discipline
(src/packages/agents/src/messaging/subscriber.py, base_agent.py) -/

/-- An ack or nack emitted to the broker channel. -/
inductive BrokerAction
  | ack (delivery_tag : Nat)
  | nack (delivery_tag : Nat) (requeue : Bool)
deriving DecidableEq, Repr

/-- `BaseAgent.get_message_class`: look the routing key up in the agent's
routing-key map; an absent key raises `ValueError` (modelled as `.error ()`),
never a silent drop. `κ` is the type of message classes. -/
def get_message_class (message_map : List (String × κ)) (routing_key : String) :
    Except Unit κ :=
  match message_map.lookup routing_key with
  | none => .error ()
  | some c => .ok c

/-- `EventSubscriber._on_message`: look up the message class, deserialize,
invoke the handler; success acks the delivery tag, any raised error nacks it
with `requeue=False`. `deserialize` and `handler` are the outcomes of
`deserialize_message` and `handle_message` for this delivery. Returns the
channel actions emitted, in order. -/
def on_message (message_map : List (String × κ)) (routing_key : String)
    (delivery_tag : Nat) (deserialize : κ → Except Unit μ)
    (handler : μ → Except Unit Unit) : List BrokerAction :=
  match get_message_class message_map routing_key with
  | .error _ => [.nack delivery_tag false]
  | .ok message_class =>
    match deserialize message_class with
    | .error _ => [.nack delivery_tag false]
    | .ok message =>
      match handler message with
      | .error _ => [.nack delivery_tag false]
      | .ok _ => [.ack delivery_tag]

/-- Number of acks in a list of channel actions. -/
def ackCount (as : List BrokerAction) : Nat :=
  (as.filter fun a => match a with | .ack _ => true | _ => false).length

/-- Number of nacks with the given requeue flag. -/
def nackCount (as : List BrokerAction) (requeue : Bool) : Nat :=
  (as.filter fun a => match a with | .nack _ r => r == requeue | _ => false).length

/-! ### Correlation registry (src/packages/agents/src/messaging/base_agent.py) -/

/-- Entry stored in `BaseAgent._correlation_map` by `publish_request`.
The free-form context dict is modelled as a string-to-string assoc list;
`timestamp` is milliseconds since epoch (`_get_timestamp`). -/
structure CorrelationEntry where
  request_routing_key : String
  reply_routing_key : String
  context : List (String × String)
  timestamp : Int
deriving DecidableEq, Repr

/-- One `publisher.publish` call as observed on the bus. -/
structure PublishRecord where
  routing_key : String
  correlation_id : String
deriving DecidableEq, Repr

/-- The agent state the correlation claims depend on: the correlation map and
the log of performed publishes. -/
structure AgentState where
  correlation_map : List (String × CorrelationEntry)
  published : List PublishRecord
deriving Repr

/-- `BaseAgent.publish_request`: the generated `uuid4` correlation id and
`_get_timestamp()` are passed in as `correlation_id` and `now`; stores a
CorrelationEntry, publishes, returns the id. -/
def publish_request (st : AgentState) (routing_key reply_routing_key : String)
    (context : List (String × String)) (correlation_id : String) (now : Int) :
    String × AgentState :=
  let entry : CorrelationEntry :=
    { request_routing_key := routing_key
      reply_routing_key := reply_routing_key
      context := context
      timestamp := now }
  (correlation_id,
    { correlation_map := dictInsert st.correlation_map correlation_id entry
      published := st.published ++ [{ routing_key := routing_key,
                                      correlation_id := correlation_id }] })

/-- `BaseAgent.publish_response`: publishes with the caller's correlation id;
does not touch the correlation map. -/
def publish_response (st : AgentState) (routing_key correlation_id : String) :
    AgentState :=
  { st with published := st.published ++ [{ routing_key := routing_key,
                                            correlation_id := correlation_id }] }

/-- `BaseAgent.get_correlation_context`: `self._correlation_map.get(id)`. -/
def get_correlation_context (st : AgentState) (correlation_id : String) :
    Option CorrelationEntry :=
  st.correlation_map.lookup correlation_id

/-- `BaseAgent.clear_correlation`: delete the entry if present. -/
def clear_correlation (st : AgentState) (correlation_id : String) : AgentState :=
  { st with correlation_map := dictRemove st.correlation_map correlation_id }

/-- `BaseAgent.cleanup_old_correlations`: remove every entry whose timestamp is
below `now - max_age_seconds * 1000` (all times in milliseconds) and return how
many were removed. `now` is `_get_timestamp()` at the time of the call. -/
def cleanup_old_correlations (st : AgentState) (max_age_seconds : Int) (now : Int) :
    Nat × AgentState :=
  let cutoff_time := now - max_age_seconds * 1000
  let old_ids := st.correlation_map.filter (fun p => p.2.timestamp < cutoff_time)
  (old_ids.length,
    { st with correlation_map :=
        st.correlation_map.filter (fun p => !(p.2.timestamp < cutoff_time : Bool)) })

/-! ### Alert engine (src/packages/agents/src/monitoring/alert_engine.py) -/

/-- `AlertCondition`. -/
structure AlertCondition where
  metric : String
  operator : String
  threshold : ℚ
  duration_seconds : Int
  cooldown_seconds : ℚ
deriving DecidableEq, Repr

/-- `AlertRule`. -/
structure AlertRule where
  id : String
  name : String
  condition : AlertCondition
  notification_channels : List String
  enabled : Bool
deriving DecidableEq, Repr

/-- `Alert`. -/
structure Alert where
  rule_id : String
  timestamp : Int
  metric : String
  current_value : ℚ
  threshold : ℚ
  severity : String
  context : List (String × String)
  suggested_actions : List String
deriving DecidableEq, Repr

/-- `AlertEngine._check_condition`. -/
def check_condition (value : ℚ) (operator : String) (threshold : ℚ) : Bool :=
  if operator = ">" then decide (value > threshold)
  else if operator = "<" then decide (value < threshold)
  else if operator = ">=" then decide (value ≥ threshold)
  else if operator = "<=" then decide (value ≤ threshold)
  else if operator = "==" then decide (|value - threshold| < 1/100)
  else false

/-- `AlertEngine._calculate_severity`. -/
def calculate_severity (value : ℚ) (condition : AlertCondition) : String :=
  let deviation :=
    if condition.threshold > 0 then |value - condition.threshold| / condition.threshold
    else 0
  if deviation > 1/2 then "critical"
  else if deviation > 1/5 then "high"
  else if deviation > 1/10 then "medium"
  else "low"

/-- `AlertEngine._suggest_actions`. -/
def suggest_actions (metric : String) (_value : ℚ) : List String :=
  ["Review " ++ metric ++ " data for anomalies",
   "Check related metrics for correlation"]

/-- Python `int()` on a rational: truncation toward zero. -/
def pyInt (q : ℚ) : Int :=
  if 0 ≤ q then ⌊q⌋ else ⌈q⌉

/-- The `Alert(...)` constructed inside `AlertEngine.evaluate`.
`timestamp or current_time.timestamp()` falls back to `now` when the argument
is `None` or the falsy `0`. -/
def mkAlert (rule_id : String) (rule : AlertRule) (metric : String) (value : ℚ)
    (timestamp : Option ℚ) (now : ℚ) : Alert :=
  let tsec := match timestamp with
    | some t => if t = 0 then now else t
    | none => now
  { rule_id := rule_id
    timestamp := pyInt (tsec * 1000)
    metric := metric
    current_value := value
    threshold := rule.condition.threshold
    severity := calculate_severity value rule.condition
    context := [("rule_name", rule.name)]
    suggested_actions := suggest_actions metric value }

/-- `AlertEngine` mutable state. `rules` is the id-keyed rules dict;
`alert_history` and `last_alert_time` are the per-rule records. Times are in
seconds (ℚ), as produced by `datetime`. -/
structure AlertEngine where
  rules : List (String × AlertRule)
  alert_history : List (String × List Alert)
  last_alert_time : List (String × ℚ)
deriving Repr

/-- `self.alert_history[rule_id].append(alert)`. `add_rule` guarantees the key
exists; for totality an absent key starts a fresh list. -/
def historyAppend (h : List (String × List Alert)) (rule_id : String) (a : Alert) :
    List (String × List Alert) :=
  if h.any (fun p => p.1 == rule_id) then
    h.map (fun p => if p.1 == rule_id then (p.1, p.2 ++ [a]) else p)
  else
    h ++ [(rule_id, [a])]

/-- One iteration of the rule loop in `AlertEngine.evaluate`: skip disabled
rules, other metrics, unmet conditions and rules still in cooldown; otherwise
build the alert, record it and stamp `last_alert_time`. -/
def AlertEngine.evaluateStep (metric : String) (value : ℚ) (timestamp : Option ℚ)
    (now : ℚ) (acc : List Alert × AlertEngine) (p : String × AlertRule) :
    List Alert × AlertEngine :=
  let rule := p.2
  if !rule.enabled then acc
  else if rule.condition.metric ≠ metric then acc
  else if !check_condition value rule.condition.operator rule.condition.threshold then
    acc
  else
    let in_cooldown := match acc.2.last_alert_time.lookup p.1 with
      | some last_alert => decide (now - last_alert < rule.condition.cooldown_seconds)
      | none => false
    if in_cooldown then acc
    else
      let alert := mkAlert p.1 rule metric value timestamp now
      (acc.1 ++ [alert],
        { acc.2 with
            alert_history := historyAppend acc.2.alert_history p.1 alert
            last_alert_time := dictInsert acc.2.last_alert_time p.1 now })

/-- `AlertEngine.evaluate`: fold the rule loop over the rules dict; returns the
triggered alerts and the updated engine. `now` is `datetime.now()` in seconds. -/
def AlertEngine.evaluate (eng : AlertEngine) (metric : String) (value : ℚ)
    (timestamp : Option ℚ) (now : ℚ) : List Alert × AlertEngine :=
  eng.rules.foldl (AlertEngine.evaluateStep metric value timestamp now) ([], eng)

/-! ### Session context manager (src/packages/agents/src/query/context_manager.py) -/

/-- An extracted entity: identified in the source by the string key
`f"{entity_type}:{value}"`. -/
structure Entity where
  entity_type : String
  value : String
deriving DecidableEq, Repr

/-- A resolved time range from a query intent. -/
structure TimeRange where
  start_time : Int
  end_time : Int
deriving DecidableEq, Repr

/-- One entry of `query_history`: the query text, its intent's time range and
metrics, and its extracted entities. A `none` time range also models the falsy
empty dict. -/
structure QueryEntry where
  query : String
  entities : List Entity
  time_range : Option TimeRange
  metrics : List String
deriving DecidableEq, Repr

/-- The dict key `f"{entity.get('entity_type')}:{entity.get('value')}"`. -/
def entityKey (e : Entity) : String :=
  e.entity_type ++ ":" ++ e.value

/-- The inner loop body over `entity_counts`/`entity_data`: bump the count for
the entity's key and remember the latest entity data for it. -/
def bumpEntity (acc : List (String × Nat × Entity)) (e : Entity) :
    List (String × Nat × Entity) :=
  let k := entityKey e
  if acc.any (fun p => p.1 == k) then
    acc.map (fun p => if p.1 = k then (k, p.2.1 + 1, e) else p)
  else
    acc ++ [(k, 1, e)]

/-- The flattened entity occurrence list of a history slice (the two nested
loops of `_extract_common_entities`). -/
def allEntities (history : List QueryEntry) : List Entity :=
  history.foldl (fun acc q => acc ++ q.entities) []

/-- `ContextManager._extract_common_entities`: tally entity keys over the
history slice, return the remembered data of every key counted more than
once, in first-occurrence order. -/
def extract_common_entities (history : List QueryEntry) : List Entity :=
  let tallies := (allEntities history).foldl bumpEntity []
  (tallies.filter (fun p => 1 < p.2.1)).map (fun p => p.2.2)

/-- `ContextManager._extract_time_range_context`: first truthy time range when
walking the slice from the most recent entry backwards. -/
def extract_time_range_context (history : List QueryEntry) : Option TimeRange :=
  history.reverse.findSome? (fun q => q.time_range)

/-- `ContextManager._extract_metric_context`: collect metrics from the most
recent entry backwards, skipping metrics already collected. -/
def extract_metric_context (history : List QueryEntry) : List String :=
  history.reverse.foldl
    (fun metrics q =>
      q.metrics.foldl (fun ms m => if ms.contains m then ms else ms ++ [m]) metrics)
    []

/-- Python `history[-n:]`. -/
def lastN (n : Nat) (l : List α) : List α :=
  l.drop (l.length - n)

/-- Result record of `extract_context_for_query`. -/
structure ExtractedContext where
  last_query : Option QueryEntry
  recent_entities : List Entity
  time_range_context : Option TimeRange
  metric_context : List String
  query_count : Nat
deriving DecidableEq, Repr

/-- `ContextManager.extract_context_for_query`, as a function of the session's
stored `query_history` (the Redis fetch is abstracted away; an absent session
is the empty history). -/
def extract_context_for_query (history : List QueryEntry) : ExtractedContext :=
  { last_query := history.getLast?
    recent_entities := extract_common_entities (lastN 3 history)
    time_range_context := extract_time_range_context (lastN 3 history)
    metric_context := extract_metric_context (lastN 3 history)
    query_count := history.length }

/-! ## Theorems -/

/-- C1: whenever a circuit breaker's state becomes OPEN at time `t` (so
`last_failure_time = t`), every call in `[t, t + recovery_timeout)` fails fast
with a retryable service-unavailable error, leaving the breaker unchanged and
never invoking the wrapped function (the outcome and state are the same for
every behaviour of the wrapped function); the first call at or after
`t + recovery_timeout` instead moves the breaker to HALF_OPEN before invoking
the wrapped function, so it does not fail fast. -/
theorem circuit_breaker_open_window (cb : CircuitBreaker) (t now : ℚ)
    (hs : cb.state = CircuitState.«open») (ht : cb.last_failure_time = some t) :
    (now < t + cb.recovery_timeout →
      ∀ res : CallResult,
        (cb.call now res).1 =
          CallOutcome.rejected { code := .DATA_SOURCE_UNAVAILABLE, retryable := true } ∧
        (cb.call now res).2 = cb) ∧
    (t + cb.recovery_timeout ≤ now →
      (cb.check_reset now).state = CircuitState.half_open ∧
      ∀ res : CallResult,
        (cb.call now res).1 =
          (match res with
           | .success => CallOutcome.returned
           | .failure => CallOutcome.raised)) := by
  have hsar : cb.should_attempt_reset now = decide (cb.recovery_timeout ≤ now - t) := by
    simp [CircuitBreaker.should_attempt_reset, hs, ht]
  constructor
  · intro hlt res
    have hnr : cb.should_attempt_reset now = false := by
      rw [hsar]
      simp only [decide_eq_false_iff_not, not_le]
      linarith
    have hcr : cb.check_reset now = cb := by
      simp [CircuitBreaker.check_reset, hnr]
    constructor <;> simp [CircuitBreaker.call, hcr, hs]
  · intro hge
    have hr : cb.should_attempt_reset now = true := by
      rw [hsar]
      simp only [decide_eq_true_eq]
      linarith
    have hcr : cb.check_reset now =
        { cb with state := .half_open, success_count := 0 } := by
      simp [CircuitBreaker.check_reset, hr]
    refine ⟨by rw [hcr], fun res => ?_⟩
    cases res <;> simp [CircuitBreaker.call, hcr]

/-- Witness for C1 at a concrete breaker: OPEN at `t = 10` with recovery
timeout 60; a call at `now = 30` is rejected with the retryable
service-unavailable error and changes nothing, and at `now = 70` the breaker
enters HALF_OPEN and the call goes through. -/
theorem circuit_breaker_open_window_witness :
    ((CircuitBreaker.call
        { failure_threshold := 5, recovery_timeout := 60, state := .«open»,
          failure_count := 5, last_failure_time := some 10, success_count := 0 }
        30 .success).1 =
      CallOutcome.rejected { code := .DATA_SOURCE_UNAVAILABLE, retryable := true } ∧
     (CircuitBreaker.call
        { failure_threshold := 5, recovery_timeout := 60, state := .«open»,
          failure_count := 5, last_failure_time := some 10, success_count := 0 }
        30 .success).2 =
      { failure_threshold := 5, recovery_timeout := 60, state := .«open»,
        failure_count := 5, last_failure_time := some 10, success_count := 0 }) ∧
    (CircuitBreaker.check_reset
        { failure_threshold := 5, recovery_timeout := 60, state := .«open»,
          failure_count := 5, last_failure_time := some 10, success_count := 0 }
        70).state = CircuitState.half_open :=
  ⟨(circuit_breaker_open_window _ 10 30 rfl rfl).1 (by norm_num) .success,
   ((circuit_breaker_open_window _ 10 70 rfl rfl).2 (by norm_num)).1⟩

/-- C4: the circuit breaker's success/failure transitions. In CLOSED, a
success resets the failure count and keeps the breaker CLOSED; a failure
increments the failure count, records the failure timestamp, and opens the
circuit exactly when the count reaches the failure threshold. In HALF_OPEN, a
failure reopens the circuit and updates the failure timestamp; the second
success since entering HALF_OPEN (entering zeroes `success_count`) closes the
circuit with failure count 0, while the first success leaves it HALF_OPEN. -/
theorem circuit_breaker_transitions (cb : CircuitBreaker) (now : ℚ) :
    (cb.state = CircuitState.closed →
      (cb.on_success.state = CircuitState.closed ∧
       cb.on_success.failure_count = 0) ∧
      ((cb.on_failure now).failure_count = cb.failure_count + 1 ∧
       (cb.on_failure now).last_failure_time = some now ∧
       (cb.failure_threshold ≤ cb.failure_count + 1 →
         (cb.on_failure now).state = CircuitState.«open») ∧
       (cb.failure_count + 1 < cb.failure_threshold →
         (cb.on_failure now).state = CircuitState.closed))) ∧
    (cb.state = CircuitState.half_open →
      ((cb.on_failure now).state = CircuitState.«open» ∧
       (cb.on_failure now).last_failure_time = some now) ∧
      (cb.success_count = 1 →
        cb.on_success.state = CircuitState.closed ∧
        cb.on_success.failure_count = 0) ∧
      (cb.success_count = 0 →
        cb.on_success.state = CircuitState.half_open ∧
        cb.on_success.success_count = 1)) := by
  constructor
  · intro hs
    by_cases hth : cb.failure_threshold ≤ cb.failure_count + 1
    · refine ⟨⟨?_, ?_⟩, ?_, ?_, fun _ => ?_, fun hlt => absurd hlt (by omega)⟩ <;>
        simp [CircuitBreaker.on_success, CircuitBreaker.on_failure, hs, hth]
    · refine ⟨⟨?_, ?_⟩, ?_, ?_, fun hge => absurd hge hth, fun _ => ?_⟩ <;>
        simp [CircuitBreaker.on_success, CircuitBreaker.on_failure, hs, hth]
  · intro hs
    refine ⟨⟨?_, ?_⟩, fun h1 => ⟨?_, ?_⟩, fun h0 => ⟨?_, ?_⟩⟩ <;>
      simp [CircuitBreaker.on_success, CircuitBreaker.on_failure, hs, *]

/-- Witness for C4 at a concrete breaker: in CLOSED with failure count 2 and
threshold 3, a failure at time 42 opens the circuit and records the
timestamp; in HALF_OPEN, a second success closes it with failure count 0. -/
theorem circuit_breaker_transitions_witness :
    ((CircuitBreaker.on_failure
        { failure_threshold := 3, recovery_timeout := 60, state := .closed,
          failure_count := 2, last_failure_time := none, success_count := 0 }
        42).state = CircuitState.«open» ∧
     (CircuitBreaker.on_failure
        { failure_threshold := 3, recovery_timeout := 60, state := .closed,
          failure_count := 2, last_failure_time := none, success_count := 0 }
        42).last_failure_time = some 42) ∧
    ((CircuitBreaker.on_success
        { failure_threshold := 3, recovery_timeout := 60, state := .half_open,
          failure_count := 3, last_failure_time := some 42, success_count := 1 }).state =
        CircuitState.closed ∧
     (CircuitBreaker.on_success
        { failure_threshold := 3, recovery_timeout := 60, state := .half_open,
          failure_count := 3, last_failure_time := some 42, success_count := 1 }).failure_count = 0) :=
  ⟨⟨((circuit_breaker_transitions _ 42).1 rfl).2.2.2.1 (by norm_num),
    ((circuit_breaker_transitions _ 42).1 rfl).2.2.1⟩,
   ((circuit_breaker_transitions _ 42).2 rfl).2.1 rfl⟩

/-- C2: a retry-wrapped call that raises a domain error with
`retryable = false` invokes the wrapped function exactly once, re-raises the
error immediately, and performs no sleeps. -/
theorem retry_nonretryable_called_once (cfg : RetryConfig)
    (f : Nat → Except PyExc α) (us : Nat → ℚ) (e : ChimeraError)
    (hmax : 1 ≤ cfg.max_attempts) (hf : f 0 = .error (.chimera e))
    (hr : e.retryable = false) :
    retryCall cfg f us =
      { result := .error (some (.chimera e)), calls := 1, sleeps := [] } := by
  obtain ⟨k, hk⟩ := Nat.exists_eq_add_of_le hmax
  unfold retryCall
  rw [hk, Nat.add_comm]
  simp [retryAux, hf, nonRetryable, hr]

/-- Witness for C2: a function that always raises a non-retryable
internal-server error under `max_attempts = 5` runs exactly once with no
sleeps. -/
theorem retry_nonretryable_called_once_witness :
    retryCall
      { max_attempts := 5, strategy := .exponential, base_delay := 1,
        max_delay := 60, jitter := true }
      (fun _ => (Except.error (PyExc.chimera
        { code := .INTERNAL_SERVER_ERROR, retryable := false }) : Except PyExc Unit))
      (fun _ => 0) =
    { result := .error (some (.chimera { code := .INTERNAL_SERVER_ERROR, retryable := false })),
      calls := 1, sleeps := [] } :=
  retry_nonretryable_called_once _ _ _ _ (by norm_num) rfl rfl

/-- C3: dispatching one delivery. If message-class lookup, deserialization and
the handler all succeed, exactly one ack of the delivery tag is emitted and no
nack; if any step fails — in particular when the routing key is absent from
the agent's routing-key map, which raises rather than silently dropping — one
nack with `requeue = false` is emitted and no ack or requeueing nack. -/
theorem on_message_ack_nack_discipline (message_map : List (String × κ))
    (routing_key : String) (delivery_tag : Nat)
    (deserialize : κ → Except Unit μ) (handler : μ → Except Unit Unit) :
    ((∃ c m, get_message_class message_map routing_key = .ok c ∧
        deserialize c = .ok m ∧ handler m = .ok ()) →
      on_message message_map routing_key delivery_tag deserialize handler =
        [BrokerAction.ack delivery_tag] ∧
      ackCount (on_message message_map routing_key delivery_tag deserialize handler) = 1 ∧
      nackCount (on_message message_map routing_key delivery_tag deserialize handler) false = 0 ∧
      nackCount (on_message message_map routing_key delivery_tag deserialize handler) true = 0) ∧
    ((message_map.lookup routing_key = none ∨
      (∃ c, get_message_class message_map routing_key = .ok c ∧
        (deserialize c = .error () ∨
         (∃ m, deserialize c = .ok m ∧ handler m = .error ())))) →
      on_message message_map routing_key delivery_tag deserialize handler =
        [BrokerAction.nack delivery_tag false] ∧
      nackCount (on_message message_map routing_key delivery_tag deserialize handler) false = 1 ∧
      ackCount (on_message message_map routing_key delivery_tag deserialize handler) = 0 ∧
      nackCount (on_message message_map routing_key delivery_tag deserialize handler) true = 0) := by
  constructor
  · rintro ⟨c, m, hc, hd, hh⟩
    have : on_message message_map routing_key delivery_tag deserialize handler =
        [BrokerAction.ack delivery_tag] := by
      simp [on_message, hc, hd, hh]
    simp [this, ackCount, nackCount]
  · intro h
    have : on_message message_map routing_key delivery_tag deserialize handler =
        [BrokerAction.nack delivery_tag false] := by
      rcases h with h | ⟨c, hc, h⟩
      · simp [on_message, get_message_class, h]
      · rcases h with h | ⟨m, hm, h⟩
        · simp [on_message, hc, h]
        · simp [on_message, hc, hm, h]
    simp [this, ackCount, nackCount]

/-- Witness for C3: with the map `{"a.b" ↦ class 1}` and an always-succeeding
pipeline, delivery on `"a.b"` is acked exactly once; delivery on the unmapped
key `"x.y"` is nacked exactly once with `requeue = false`. -/
theorem on_message_ack_nack_discipline_witness :
    on_message [("a.b", 1)] "a.b" 7 (fun _ => Except.ok 0)
        (fun (_ : Nat) => Except.ok ()) = [BrokerAction.ack 7] ∧
    on_message [("a.b", 1)] "x.y" 7 (fun _ => Except.ok 0)
        (fun (_ : Nat) => Except.ok ()) = [BrokerAction.nack 7 false] :=
  ⟨((on_message_ack_nack_discipline [("a.b", 1)] "a.b" 7 _ _).1
      ⟨1, 0, rfl, rfl, rfl⟩).1,
   ((on_message_ack_nack_discipline [("a.b", 1)] "x.y" 7 _ _).2
      (Or.inl rfl)).1⟩

/-- Updating every entry holding key `k` makes a lookup of `k` return the new
value, provided some entry holds `k`. -/
theorem lookup_map_update (m : List (String × β)) (k : String) (v : β)
    (h : (m.any fun q => q.1 == k) = true) :
    (m.map fun q => if q.1 == k then (k, v) else q).lookup k = some v := by
  induction m with
  | nil => simp at h
  | cons p m ih =>
    obtain ⟨pk, pv⟩ := p
    by_cases hpk : pk = k
    · subst hpk
      simp
    · have hif : (pk == k) = false := by simpa using hpk
      have hkp : (k == pk) = false := by
        simpa using fun hh : k = pk => hpk hh.symm
      have hm : (m.any fun q => q.1 == k) = true := by
        simp only [List.any_cons, Bool.or_eq_true, beq_iff_eq] at h
        exact h.resolve_left hpk
      simp only [List.map_cons, hif, Bool.false_eq_true, if_false]
      simpa [List.lookup_cons, hkp] using ih hm

/-- Appending a fresh key at the end of a dict makes a lookup of that key
return the new value. -/
theorem lookup_append_fresh (m : List (String × β)) (k : String) (v : β)
    (h : (m.any fun q => q.1 == k) = false) :
    (m ++ [(k, v)]).lookup k = some v := by
  induction m with
  | nil => simp
  | cons p m ih =>
    obtain ⟨pk, pv⟩ := p
    simp only [List.any_cons, Bool.or_eq_false_iff] at h
    have h1 : ¬(pk = k) := by simpa using h.1
    have hkp : (k == pk) = false := by
      simpa using fun hh : k = pk => h1 hh.symm
    simp only [List.cons_append]
    simpa [List.lookup_cons, hkp] using ih h.2

/-- Looking up the just-inserted key of a Python dict returns the new value. -/
theorem lookup_dictInsert_self (m : List (String × β)) (k : String) (v : β) :
    (dictInsert m k v).lookup k = some v := by
  cases hany : (m.any fun p => p.1 == k) with
  | true =>
    simp only [dictInsert, hany, if_true]
    exact lookup_map_update m k v hany
  | false =>
    simp only [dictInsert, hany, Bool.false_eq_true, if_false]
    exact lookup_append_fresh m k v hany

/-- Removing a key from a Python dict makes lookups of that key return
nothing. -/
theorem lookup_dictRemove_self (m : List (String × β)) (k : String) :
    (dictRemove m k).lookup k = none := by
  induction m with
  | nil => rfl
  | cons p m ih =>
    obtain ⟨pk, pv⟩ := p
    simp only [dictRemove] at ih
    by_cases hpk : pk = k
    · have hb : ((pk, pv).1 != k) = false := by simp [hpk]
      simpa [dictRemove, List.filter_cons, hb] using ih
    · have hb : ((pk, pv).1 != k) = true := by simp [hpk]
      have hkp : (k == pk) = false := by
        simpa using fun hh : k = pk => hpk hh.symm
      simp only [dictRemove, List.filter_cons, hb, if_true]
      simpa [List.lookup_cons, hkp] using ih

/-- C5: `publish_request` returns the generated correlation id and stores a
`CorrelationEntry` holding exactly the supplied context;
`get_correlation_context` returns exactly that entry, also after any
intervening `publish_response` (matching or not — responses never touch the
correlation map); after `clear_correlation` of the id (directly or after a
response) it returns `none`. -/
theorem publish_request_correlation_lifecycle (st : AgentState)
    (routing_key reply_routing_key : String) (context : List (String × String))
    (correlation_id : String) (now : Int) :
    (publish_request st routing_key reply_routing_key context correlation_id now).1 =
      correlation_id ∧
    get_correlation_context
        (publish_request st routing_key reply_routing_key context correlation_id now).2
        correlation_id =
      some { request_routing_key := routing_key, reply_routing_key := reply_routing_key,
             context := context, timestamp := now } ∧
    (∀ rk2 cid2,
      get_correlation_context
          (publish_response
            (publish_request st routing_key reply_routing_key context correlation_id now).2
            rk2 cid2)
          correlation_id =
        some { request_routing_key := routing_key, reply_routing_key := reply_routing_key,
               context := context, timestamp := now }) ∧
    get_correlation_context
        (clear_correlation
          (publish_request st routing_key reply_routing_key context correlation_id now).2
          correlation_id)
        correlation_id = none ∧
    (∀ rk2 cid2,
      get_correlation_context
          (clear_correlation
            (publish_response
              (publish_request st routing_key reply_routing_key context correlation_id now).2
              rk2 cid2)
            correlation_id)
          correlation_id = none) := by
  refine ⟨rfl, ?_, fun rk2 cid2 => ?_, ?_, fun rk2 cid2 => ?_⟩ <;>
    simp [publish_request, publish_response, clear_correlation, get_correlation_context,
          lookup_dictInsert_self, lookup_dictRemove_self]

/-- The lengths of the two parts of a Boolean partition of a list sum to the
length of the list. -/
theorem length_filter_add_length_filter_not (l : List α) (p : α → Bool) :
    (l.filter p).length + (l.filter fun a => !p a).length = l.length := by
  induction l with
  | nil => rfl
  | cons x l ih =>
    by_cases h : p x = true <;>
      simp only [List.filter_cons, h, Bool.not_true, Bool.not_false, if_true, if_false,
        Bool.false_eq_true, List.length_cons] <;> omega

/-- C6: `cleanup_old_correlations(a)` at time `now` keeps exactly the entries
with `now - a·1000 ≤ timestamp` (all younger entries, in their original
order), removes exactly the older ones, returns the number removed (removed +
kept = original), and is idempotent: an immediate second call at the same
`now` removes nothing and returns 0. -/
theorem cleanup_old_correlations_exact (st : AgentState) (a now : Int) :
    (∀ p, p ∈ (cleanup_old_correlations st a now).2.correlation_map ↔
      p ∈ st.correlation_map ∧ now - a * 1000 ≤ p.2.timestamp) ∧
    (cleanup_old_correlations st a now).2.correlation_map.Sublist st.correlation_map ∧
    (cleanup_old_correlations st a now).1 +
        (cleanup_old_correlations st a now).2.correlation_map.length =
      st.correlation_map.length ∧
    cleanup_old_correlations (cleanup_old_correlations st a now).2 a now =
      (0, (cleanup_old_correlations st a now).2) := by
  refine ⟨fun p => ?_, ?_, ?_, ?_⟩
  · simp [cleanup_old_correlations, List.mem_filter, not_lt]
  · exact List.filter_sublist _
  · simpa [cleanup_old_correlations] using
      length_filter_add_length_filter_not st.correlation_map
        (fun p => decide (p.2.timestamp < now - a * 1000))
  · have hnil : ((cleanup_old_correlations st a now).2.correlation_map.filter
        fun p => decide (p.2.timestamp < now - a * 1000)) = [] := by
      simp only [cleanup_old_correlations, List.filter_filter]
      apply List.filter_eq_nil_iff.mpr
      intro p _
      simp
    have hsame : ((cleanup_old_correlations st a now).2.correlation_map.filter
        fun p => !decide (p.2.timestamp < now - a * 1000)) =
        (cleanup_old_correlations st a now).2.correlation_map := by
      apply List.filter_eq_self.mpr
      intro p hp
      simp only [cleanup_old_correlations] at hp
      simpa using (List.of_mem_filter hp)
    simp only [cleanup_old_correlations]
    refine Prod.ext ?_ ?_
    · simp only [cleanup_old_correlations] at hnil
      simp [hnil]
    · simp only [cleanup_old_correlations] at hsame ⊢
      simp [hsame]

/-- One step of the `evaluate` rule loop either leaves the alert list alone or
appends the alert of a rule that is enabled, matches the metric, and whose
condition check returned true. -/
theorem evaluateStep_mem (metric : String) (value : ℚ) (timestamp : Option ℚ)
    (now : ℚ) (acc : List Alert × AlertEngine) (q : String × AlertRule) (a : Alert)
    (ha : a ∈ (AlertEngine.evaluateStep metric value timestamp now acc q).1) :
    a ∈ acc.1 ∨
      (a = mkAlert q.1 q.2 metric value timestamp now ∧ q.2.enabled = true ∧
       q.2.condition.metric = metric ∧
       check_condition value q.2.condition.operator q.2.condition.threshold = true) := by
  simp only [AlertEngine.evaluateStep] at ha
  split at ha
  · exact Or.inl ha
  · rename_i h1
    split at ha
    · exact Or.inl ha
    · rename_i h2
      split at ha
      · exact Or.inl ha
      · rename_i h3
        split at ha
        · exact Or.inl ha
        · rcases List.mem_append.mp ha with h | h
          · exact Or.inl h
          · refine Or.inr ⟨List.mem_singleton.mp h, ?_, ?_, ?_⟩
            · simpa using h1
            · simpa using h2
            · simpa using h3

/-- Every alert produced by folding the rule loop either was already in the
accumulator or belongs to a listed rule that is enabled, matches the metric,
and whose condition check passed. -/
theorem evaluate_foldl_mem (metric : String) (value : ℚ) (timestamp : Option ℚ)
    (now : ℚ) (rules : List (String × AlertRule)) :
    ∀ (acc : List Alert × AlertEngine) (a : Alert),
      a ∈ (rules.foldl (AlertEngine.evaluateStep metric value timestamp now) acc).1 →
      a ∈ acc.1 ∨ ∃ p, p ∈ rules ∧
        a = mkAlert p.1 p.2 metric value timestamp now ∧ p.2.enabled = true ∧
        p.2.condition.metric = metric ∧
        check_condition value p.2.condition.operator p.2.condition.threshold = true := by
  induction rules with
  | nil => exact fun acc a ha => Or.inl ha
  | cons q rules ih =>
    intro acc a ha
    rw [List.foldl_cons] at ha
    rcases ih _ a ha with h | ⟨p, hp, rest⟩
    · rcases evaluateStep_mem metric value timestamp now acc q a h with h' | h'
      · exact Or.inl h'
      · exact Or.inr ⟨q, List.mem_cons_self q rules, h'⟩
    · exact Or.inr ⟨p, List.mem_cons_of_mem _ hp, rest⟩

/-- `_calculate_severity` computes exactly the relative-deviation bands (the
division-by-zero convention `x / 0 = 0` makes the `threshold ≤ 0` guard of the
source coincide with the plain formula). -/
theorem calculate_severity_eq (value : ℚ) (condition : AlertCondition) :
    calculate_severity value condition =
      (if |value - condition.threshold| / condition.threshold > 1/2 then "critical"
       else if |value - condition.threshold| / condition.threshold > 1/5 then "high"
       else if |value - condition.threshold| / condition.threshold > 1/10 then "medium"
       else "low") := by
  simp only [calculate_severity]
  by_cases ht : condition.threshold > 0
  · simp [ht]
  · have hle : |value - condition.threshold| / condition.threshold ≤ 0 := by
      rcases lt_or_eq_of_le (not_lt.mp ht) with hlt | heq
      · exact div_nonpos_of_nonneg_of_nonpos (abs_nonneg _) (le_of_lt hlt)
      · rw [heq, div_zero]
    have h1 : ¬(|value - condition.threshold| / condition.threshold > 1/2) := by linarith
    have h2 : ¬(|value - condition.threshold| / condition.threshold > 1/5) := by linarith
    have h3 : ¬(|value - condition.threshold| / condition.threshold > 1/10) := by linarith
    rw [if_neg ht]
    rw [if_neg (by norm_num : ¬((0 : ℚ) > 1/2)), if_neg (by norm_num : ¬((0 : ℚ) > 1/5)),
        if_neg (by norm_num : ¬((0 : ℚ) > 1/10)), if_neg h1, if_neg h2, if_neg h3]

/-- C9: every alert fired by `evaluate` carries a severity derived from the
relative deviation of the value from the rule's threshold: greater than 50%
critical, greater than 20% high, greater than 10% medium, otherwise low. -/
theorem alert_severity_from_relative_deviation (eng : AlertEngine) (metric : String)
    (value : ℚ) (timestamp : Option ℚ) (now : ℚ) :
    ∀ a ∈ (eng.evaluate metric value timestamp now).1,
      a.severity =
        (if |a.current_value - a.threshold| / a.threshold > 1/2 then "critical"
         else if |a.current_value - a.threshold| / a.threshold > 1/5 then "high"
         else if |a.current_value - a.threshold| / a.threshold > 1/10 then "medium"
         else "low") := by
  intro a ha
  simp only [AlertEngine.evaluate] at ha
  rcases evaluate_foldl_mem metric value timestamp now eng.rules ([], eng) a ha with
    h | ⟨p, _, ha', _, _, _⟩
  · simp at h
  · rw [ha']
    simpa [mkAlert] using calculate_severity_eq value p.2.condition

/-- A concrete one-rule engine used to instantiate the alert-engine claims:
one enabled rule on metric `cpu` with operator `>` and threshold 10. -/
def sampleRule : AlertRule :=
  { id := "r1", name := "cpu high",
    condition := { metric := "cpu", operator := ">", threshold := 10,
                   duration_seconds := 0, cooldown_seconds := 60 },
    notification_channels := [], enabled := true }

/-- The engine holding just `sampleRule`, with empty history and no recorded
alerts. -/
def sampleEngine : AlertEngine :=
  { rules := [("r1", sampleRule)], alert_history := [("r1", [])],
    last_alert_time := [] }

/-- Witness for C9: evaluating `cpu = 16` against `sampleRule` (threshold 10,
deviation 60%) fires an alert whose severity is the critical band of the
deviation formula. -/
theorem alert_severity_from_relative_deviation_witness :
    (mkAlert "r1" sampleRule "cpu" 16 none 100).severity =
      (if |(mkAlert "r1" sampleRule "cpu" 16 none 100).current_value -
            (mkAlert "r1" sampleRule "cpu" 16 none 100).threshold| /
            (mkAlert "r1" sampleRule "cpu" 16 none 100).threshold > 1/2 then "critical"
       else if |(mkAlert "r1" sampleRule "cpu" 16 none 100).current_value -
            (mkAlert "r1" sampleRule "cpu" 16 none 100).threshold| /
            (mkAlert "r1" sampleRule "cpu" 16 none 100).threshold > 1/5 then "high"
       else if |(mkAlert "r1" sampleRule "cpu" 16 none 100).current_value -
            (mkAlert "r1" sampleRule "cpu" 16 none 100).threshold| /
            (mkAlert "r1" sampleRule "cpu" 16 none 100).threshold > 1/10 then "medium"
       else "low") := by
  have heq : (sampleEngine.evaluate "cpu" 16 none 100).1 =
      [mkAlert "r1" sampleRule "cpu" 16 none 100] := by rfl
  exact alert_severity_from_relative_deviation sampleEngine "cpu" 16 none 100
    (mkAlert "r1" sampleRule "cpu" 16 none 100)
    (by rw [heq]; exact List.mem_singleton.mpr rfl)

/-- C10: the `==` operator of `_check_condition` is approximate equality
(absolute difference strictly below 0.01); an operator outside
`>`, `<`, `>=`, `<=`, `==` never meets the condition; and every alert fired by
`evaluate` comes from a listed rule whose condition check returned true, so a
rule with an unrecognized operator never fires. -/
theorem check_condition_semantics :
    (∀ value threshold : ℚ,
      check_condition value "==" threshold = decide (|value - threshold| < 1/100)) ∧
    (∀ (value threshold : ℚ) (op : String), op ≠ ">" → op ≠ "<" → op ≠ ">=" →
      op ≠ "<=" → op ≠ "==" → check_condition value op threshold = false) ∧
    (∀ (eng : AlertEngine) (metric : String) (value : ℚ) (timestamp : Option ℚ)
      (now : ℚ) (a : Alert), a ∈ (eng.evaluate metric value timestamp now).1 →
      ∃ p, p ∈ eng.rules ∧ a.rule_id = p.1 ∧
        check_condition value p.2.condition.operator p.2.condition.threshold = true) := by
  refine ⟨fun v t => ?_, fun v t op h1 h2 h3 h4 h5 => ?_,
    fun eng metric v ts now a ha => ?_⟩
  · simp [check_condition]
  · simp [check_condition, h1, h2, h3, h4, h5]
  · simp only [AlertEngine.evaluate] at ha
    rcases evaluate_foldl_mem metric v ts now eng.rules ([], eng) a ha with
      h | ⟨p, hp, ha', _, _, hc⟩
    · simp at h
    · exact ⟨p, hp, by simp [ha', mkAlert], hc⟩

/-- Witness for C10: `==` at value 5 and threshold 5 uses the approximate
test, and the unknown operator `!=` never meets a condition. -/
theorem check_condition_semantics_witness :
    check_condition 5 "==" 5 = decide (|(5 : ℚ) - 5| < 1/100) ∧
    check_condition 1 "!=" 0 = false :=
  ⟨check_condition_semantics.1 5 5,
   check_condition_semantics.2.1 1 0 "!=" (by decide) (by decide) (by decide)
     (by decide) (by decide)⟩

/-- Counterexample to C7 as stated: with EXPONENTIAL strategy, jitter
disabled, `base_delay = -1` and `max_delay = 60`, the sleep after the first
failed attempt is `max(0, ·) = 0`, not `min(base · 2^0, max) = -1` as the
claim requires for every invocation. -/
theorem retry_sleep_formula_counterexample :
    (retryCall
        { max_attempts := 2, strategy := .exponential, base_delay := -1,
          max_delay := 60, jitter := false }
        (fun _ => (Except.error PyExc.generic : Except PyExc Unit))
        (fun _ => 0)).sleeps = [0] ∧
    min ((-1 : ℚ) * 2 ^ 0) 60 ≠ 0 := by
  constructor
  · simp [retryCall, retryAux, nonRetryable, RetryConfig.get_delay, exponential_backoff]
  · norm_num

/-- The retry loop makes at most `fuel` calls. -/
theorem retryAux_calls_le (cfg : RetryConfig) (f : Nat → Except PyExc α)
    (us : Nat → ℚ) (fuel : Nat) :
    ∀ attempt, (retryAux cfg f us attempt fuel).calls ≤ fuel := by
  induction fuel with
  | zero => intro attempt; simp [retryAux]
  | succ fuel ih =>
    intro attempt
    rw [retryAux]
    cases hf : f attempt with
    | ok a => simp
    | error e =>
      cases hnr : nonRetryable e with
      | true => simp [hnr]
      | false =>
        by_cases hfu : 0 < fuel
        · have h := ih (attempt + 1)
          simp [hnr, hfu]
          omega
        · simp [hnr, hfu]

/-- The `i`-th sleep recorded by the retry loop starting at `attempt` is the
configured delay for attempt `attempt + i`. -/
theorem retryAux_sleeps_get? (cfg : RetryConfig) (f : Nat → Except PyExc α)
    (us : Nat → ℚ) (fuel : Nat) :
    ∀ attempt i, i < (retryAux cfg f us attempt fuel).sleeps.length →
      (retryAux cfg f us attempt fuel).sleeps.get? i =
        some (cfg.get_delay (attempt + i) (us (attempt + i))) := by
  induction fuel with
  | zero => intro attempt i h; simp [retryAux] at h
  | succ fuel ih =>
    intro attempt i h
    rw [retryAux] at h ⊢
    cases hf : f attempt with
    | ok a => rw [hf] at h; simp at h
    | error e =>
      rw [hf] at h
      cases hnr : nonRetryable e with
      | true => simp [hnr] at h
      | false =>
        by_cases hfu : 0 < fuel
        · cases i with
          | zero => simp [hnr, hfu]
          | succ i =>
            have hlen : i < (retryAux cfg f us (attempt + 1) fuel).sleeps.length := by
              simp [hnr, hfu] at h
              omega
            have hrec := ih (attempt + 1) i hlen
            have harith : attempt + 1 + i = attempt + (i + 1) := by omega
            simpa [hnr, hfu, harith] using hrec
        · simp [hnr, hfu] at h

/-- Amended C7: the wrapped function runs at most `max_attempts` times, the
sleep after the `i`-th failed attempt is `get_delay i`, and — provided the
configured base and max delays are nonnegative — `get_delay i` equals
`min(base · 2^i, max)` for EXPONENTIAL with jitter disabled, is perturbed from
that value by at most ±25% and stays nonnegative when jitter is enabled (for a
jitter sample within the ±25% band the source draws from), equals
`min(base · (i+1), max)` for LINEAR, and equals `base` for CONSTANT. -/
theorem retry_attempts_and_delay_schedule (cfg : RetryConfig)
    (f : Nat → Except PyExc α) (us : Nat → ℚ)
    (hbase : 0 ≤ cfg.base_delay) (hmax : 0 ≤ cfg.max_delay) :
    (retryCall cfg f us).calls ≤ cfg.max_attempts ∧
    (∀ i, i < (retryCall cfg f us).sleeps.length →
      (retryCall cfg f us).sleeps.get? i = some (cfg.get_delay i (us i))) ∧
    (∀ i : Nat,
      (cfg.strategy = .exponential → cfg.jitter = false →
        cfg.get_delay i (us i) = min (cfg.base_delay * 2 ^ i) cfg.max_delay) ∧
      (cfg.strategy = .exponential → cfg.jitter = true →
        |us i| ≤ min (cfg.base_delay * 2 ^ i) cfg.max_delay / 4 →
        |cfg.get_delay i (us i) - min (cfg.base_delay * 2 ^ i) cfg.max_delay| ≤
          min (cfg.base_delay * 2 ^ i) cfg.max_delay / 4 ∧
        0 ≤ cfg.get_delay i (us i)) ∧
      (cfg.strategy = .linear →
        cfg.get_delay i (us i) = min (cfg.base_delay * (i + 1)) cfg.max_delay) ∧
      (cfg.strategy = .constant → cfg.get_delay i (us i) = cfg.base_delay)) := by
  refine ⟨retryAux_calls_le cfg f us cfg.max_attempts 0, ?_, fun i => ⟨?_, ?_, ?_, ?_⟩⟩
  · intro i h
    simpa using retryAux_sleeps_get? cfg f us cfg.max_attempts 0 i h
  · intro hs hj
    have hd : 0 ≤ min (cfg.base_delay * 2 ^ i) cfg.max_delay :=
      le_min (mul_nonneg hbase (pow_nonneg (by norm_num) i)) hmax
    simp [RetryConfig.get_delay, hs, exponential_backoff, hj, max_eq_right hd]
  · intro hs hj hu
    have hd : 0 ≤ min (cfg.base_delay * 2 ^ i) cfg.max_delay :=
      le_min (mul_nonneg hbase (pow_nonneg (by norm_num) i)) hmax
    have habs := abs_le.mp hu
    have hsum : 0 ≤ min (cfg.base_delay * 2 ^ i) cfg.max_delay + us i := by
      have : min (cfg.base_delay * 2 ^ i) cfg.max_delay / 4 ≤
          min (cfg.base_delay * 2 ^ i) cfg.max_delay := by linarith
      linarith [habs.1]
    have hgd : cfg.get_delay i (us i) =
        min (cfg.base_delay * 2 ^ i) cfg.max_delay + us i := by
      simp [RetryConfig.get_delay, hs, exponential_backoff, hj, max_eq_right hsum]
    rw [hgd]
    constructor
    · simpa using hu
    · exact hsum
  · intro hs
    simp [RetryConfig.get_delay, hs, linear_backoff]
  · intro hs
    simp [RetryConfig.get_delay, hs, constant_backoff]

/-- Witness for the amended C7: with EXPONENTIAL strategy, jitter disabled,
base delay 1 and max delay 60 under `max_attempts = 3`, the loop calls at most
3 times and the delay for attempt 0 is `min(1 · 2^0, 60)`. -/
theorem retry_attempts_and_delay_schedule_witness :
    (retryCall
        { max_attempts := 3, strategy := .exponential, base_delay := 1,
          max_delay := 60, jitter := false }
        (fun _ => (Except.error PyExc.generic : Except PyExc Unit))
        (fun _ => 0)).calls ≤ 3 ∧
    RetryConfig.get_delay
        { max_attempts := 3, strategy := .exponential, base_delay := 1,
          max_delay := 60, jitter := false } 0 0 =
      min ((1 : ℚ) * 2 ^ 0) 60 :=
  ⟨(retry_attempts_and_delay_schedule _
      (fun _ => (Except.error PyExc.generic : Except PyExc Unit)) (fun _ => 0)
      (by norm_num) (by norm_num)).1,
   ((retry_attempts_and_delay_schedule _
      (fun _ => (Except.error PyExc.generic : Except PyExc Unit)) (fun _ => 0)
      (by norm_num) (by norm_num)).2.2 0).1 rfl rfl⟩

/-- Counterexample to C8 as stated: a session whose history is the single
entry `q0` with the entity `METRIC:price` listed twice. The entity appears in
only one of the last 3 history entries, yet `extract_context_for_query`
returns it among the common entities, because the source counts key
occurrences (`count > 1`), not the number of entries containing the key. -/
theorem extract_common_entities_counterexample :
    (extract_context_for_query
        [({ query := "q0",
            entities := [{ entity_type := "METRIC", value := "price" },
                         { entity_type := "METRIC", value := "price" }],
            time_range := none, metrics := [] } : QueryEntry)]).recent_entities =
      [{ entity_type := "METRIC", value := "price" }] ∧
    ((lastN 3
        [({ query := "q0",
            entities := [{ entity_type := "METRIC", value := "price" },
                         { entity_type := "METRIC", value := "price" }],
            time_range := none, metrics := [] } : QueryEntry)]).filter
      (fun q => q.entities.contains
        { entity_type := "METRIC", value := "price" })).length = 1 := by
  constructor <;> rfl

/-- Number of occurrences of the dict key `k` among the entity occurrence
list `es`. -/
def countKey (k : String) (es : List Entity) : Nat :=
  (es.filter fun e => entityKey e == k).length

/-- Count stored for key `k` in a tally list (first entry with the key wins,
0 when absent). -/
def tallyCount : List (String × Nat × Entity) → String → Nat
  | [], _ => 0
  | p :: ps, k => if p.1 = k then p.2.1 else tallyCount ps k

theorem tallyCount_eq_zero (acc : List (String × Nat × Entity)) (k : String)
    (h : (acc.any fun p => p.1 == k) = false) : tallyCount acc k = 0 := by
  induction acc with
  | nil => rfl
  | cons p ps ih =>
    simp only [List.any_cons, Bool.or_eq_false_iff] at h
    have h1 : ¬(p.1 = k) := by simpa using h.1
    simp [tallyCount, h1, ih h.2]

theorem tallyCount_append_single (acc : List (String × Nat × Entity)) (k0 k : String)
    (n : Nat) (e : Entity) (hfresh : (acc.any fun p => p.1 == k0) = false) :
    tallyCount (acc ++ [(k0, n, e)]) k =
      if k0 = k then tallyCount acc k + n else tallyCount acc k := by
  induction acc with
  | nil => by_cases h : k0 = k <;> simp [tallyCount, h]
  | cons p ps ih =>
    simp only [List.any_cons, Bool.or_eq_false_iff] at hfresh
    have h1 : ¬(p.1 = k0) := by simpa using hfresh.1
    by_cases hpk : p.1 = k
    · have hk0 : ¬(k0 = k) := fun h => h1 (hpk.trans h.symm)
      simp [tallyCount, hpk, hk0]
    · simp only [List.cons_append, tallyCount, if_neg hpk]
      exact ih hfresh.2

theorem tallyCount_map_update (acc : List (String × Nat × Entity)) (k0 k : String)
    (e : Entity) :
    tallyCount (acc.map fun p => if p.1 = k0 then (k0, p.2.1 + 1, e) else p) k =
      if k0 = k ∧ (acc.any fun p => p.1 == k0) = true then tallyCount acc k + 1
      else tallyCount acc k := by
  induction acc with
  | nil => simp [tallyCount]
  | cons p ps ih =>
    by_cases hp : p.1 = k0
    · by_cases hk : k0 = k
      · have hpk : p.1 = k := hp.trans hk
        simp [tallyCount, hp, hk, hpk, List.any_cons]
      · have hpk : ¬(p.1 = k) := fun h => hk (hp.symm.trans h)
        simp [tallyCount, hp, hk, hpk, List.any_cons, ih]
    · have hb : (p.1 == k0) = false := by simpa using hp
      by_cases hpk : p.1 = k
      · have hk : ¬(k0 = k) := fun h => hp (hpk.trans h.symm)
        have hk' : ¬(k = k0) := fun h => hk h.symm
        simp [tallyCount, hp, hpk, hk, hk', hb, List.any_cons]
      · rw [List.map_cons, if_neg hp, tallyCount, if_neg hpk, ih,
            List.any_cons, hb, Bool.false_or, tallyCount, if_neg hpk]

theorem tallyCount_bumpEntity (acc : List (String × Nat × Entity)) (e : Entity)
    (k : String) :
    tallyCount (bumpEntity acc e) k =
      if entityKey e = k then tallyCount acc k + 1 else tallyCount acc k := by
  cases hany : (acc.any fun p => p.1 == entityKey e) with
  | true =>
    simp only [bumpEntity, hany, if_true]
    rw [tallyCount_map_update]
    by_cases hk : entityKey e = k
    · rw [if_pos ⟨hk, hany⟩, if_pos hk]
    · rw [if_neg (fun hc => hk hc.1), if_neg hk]
  | false =>
    simp only [bumpEntity, hany, Bool.false_eq_true, if_false]
    rw [tallyCount_append_single acc (entityKey e) k 1 e hany]

theorem countKey_cons (k : String) (e : Entity) (es : List Entity) :
    countKey k (e :: es) =
      (if entityKey e = k then 1 else 0) + countKey k es := by
  by_cases h : entityKey e = k <;>
    · simp [countKey, List.filter_cons, h]
      try omega

theorem tallyCount_foldl (es : List Entity) :
    ∀ (acc : List (String × Nat × Entity)) (k : String),
      tallyCount (es.foldl bumpEntity acc) k = tallyCount acc k + countKey k es := by
  induction es with
  | nil => intro acc k; simp [countKey]
  | cons e es ih =>
    intro acc k
    rw [List.foldl_cons, ih, tallyCount_bumpEntity, countKey_cons]
    by_cases hk : entityKey e = k <;>
      · simp [hk]
        try omega

/-- Every tally entry's stored entity data has the entry's key. -/
def DataKeyed (acc : List (String × Nat × Entity)) : Prop :=
  ∀ p ∈ acc, entityKey p.2.2 = p.1

/-- Tally keys are pairwise distinct. -/
def KeysNodup (acc : List (String × Nat × Entity)) : Prop :=
  (acc.map fun p => p.1).Nodup

theorem dataKeyed_bumpEntity (acc : List (String × Nat × Entity)) (e : Entity)
    (h : DataKeyed acc) : DataKeyed (bumpEntity acc e) := by
  intro p hp
  simp only [bumpEntity] at hp
  split at hp
  · obtain ⟨q, hq, hqe⟩ := List.mem_map.mp hp
    by_cases hqk : q.1 = entityKey e
    · rw [← hqe]
      simp [hqk]
    · rw [← hqe]
      simp only [if_neg hqk]
      exact h q hq
  · rcases List.mem_append.mp hp with hq | hq
    · exact h p hq
    · rw [List.mem_singleton.mp hq]

theorem keysNodup_bumpEntity (acc : List (String × Nat × Entity)) (e : Entity)
    (h : KeysNodup acc) : KeysNodup (bumpEntity acc e) := by
  unfold KeysNodup bumpEntity
  cases hany : (acc.any fun p => p.1 == entityKey e) with
  | true =>
    simp only [hany, if_true]
    have hmap : ((acc.map fun p => if p.1 = entityKey e then (entityKey e, p.2.1 + 1, e)
        else p).map fun p => p.1) = acc.map fun p => p.1 := by
      rw [List.map_map]
      apply List.map_congr_left
      intro p _
      by_cases hp : p.1 = entityKey e
      · simp [hp]
      · simp [hp]
    rw [hmap]
    exact h
  | false =>
    simp only [hany, Bool.false_eq_true, if_false, List.map_append]
    refine List.Nodup.append h (List.nodup_singleton _) ?_
    intro x hx hxe
    rw [List.mem_singleton.mp hxe] at hx
    obtain ⟨p, hp, hpk⟩ := List.mem_map.mp hx
    have : (acc.any fun p => p.1 == entityKey e) = true :=
      List.any_eq_true.mpr ⟨p, hp, by simpa using hpk⟩
    rw [hany] at this
    exact Bool.false_ne_true this

theorem dataKeyed_foldl (es : List Entity) :
    ∀ acc, DataKeyed acc → DataKeyed (es.foldl bumpEntity acc) := by
  induction es with
  | nil => exact fun acc h => h
  | cons e es ih =>
    intro acc h
    rw [List.foldl_cons]
    exact ih _ (dataKeyed_bumpEntity acc e h)

theorem keysNodup_foldl (es : List Entity) :
    ∀ acc, KeysNodup acc → KeysNodup (es.foldl bumpEntity acc) := by
  induction es with
  | nil => exact fun acc h => h
  | cons e es ih =>
    intro acc h
    rw [List.foldl_cons]
    exact ih _ (keysNodup_bumpEntity acc e h)

theorem tallyCount_of_mem (acc : List (String × Nat × Entity))
    (p : String × Nat × Entity) (hn : KeysNodup acc) (hmem : p ∈ acc) :
    tallyCount acc p.1 = p.2.1 := by
  induction acc with
  | nil => simp at hmem
  | cons q ps ih =>
    rcases List.mem_cons.mp hmem with h | h
    · rw [h]
      simp [tallyCount]
    · have hcons : (q.1 :: ps.map fun r => r.1).Nodup := by
        simpa [KeysNodup] using hn
      have hq : ¬(q.1 = p.1) := by
        intro hqp
        have hpmem : p.1 ∈ ps.map fun r => r.1 := List.mem_map.mpr ⟨p, h, rfl⟩
        rw [hqp] at hcons
        exact (List.nodup_cons.mp hcons).1 hpmem
      have hn' : KeysNodup ps := by
        simpa [KeysNodup] using (List.nodup_cons.mp hcons).2
      simp [tallyCount, hq, ih hn' h]

theorem exists_mem_of_tallyCount_pos (acc : List (String × Nat × Entity))
    (k : String) (h : 0 < tallyCount acc k) :
    ∃ p ∈ acc, p.1 = k ∧ p.2.1 = tallyCount acc k := by
  induction acc with
  | nil => simp [tallyCount] at h
  | cons q ps ih =>
    by_cases hq : q.1 = k
    · exact ⟨q, List.mem_cons_self q ps, hq, by simp [tallyCount, hq]⟩
    · rw [tallyCount, if_neg hq] at h ⊢
      obtain ⟨p, hp, hk, hc⟩ := ih h
      exact ⟨p, List.mem_cons_of_mem q hp, hk, hc⟩

/-- `_extract_common_entities` returns an entity with key `k` exactly when `k`
occurs more than once among the entity occurrences of the slice. -/
theorem extract_common_entities_key_mem (history : List QueryEntry) (k : String) :
    (∃ e ∈ extract_common_entities history, entityKey e = k) ↔
      1 < countKey k (allEntities history) := by
  have hcount : tallyCount ((allEntities history).foldl bumpEntity []) k =
      countKey k (allEntities history) := by
    simpa [tallyCount] using tallyCount_foldl (allEntities history) [] k
  have hd : DataKeyed ((allEntities history).foldl bumpEntity []) :=
    dataKeyed_foldl _ [] (by intro p hp; simp at hp)
  have hn : KeysNodup ((allEntities history).foldl bumpEntity []) :=
    keysNodup_foldl _ [] (by simp [KeysNodup])
  simp only [extract_common_entities]
  constructor
  · rintro ⟨e, he, hk⟩
    obtain ⟨p, hp, hpe⟩ := List.mem_map.mp he
    have hpf := List.mem_filter.mp hp
    have hkey : p.1 = k := by
      rw [← hd p hpf.1, hpe, hk]
    have hcm := tallyCount_of_mem _ p hn hpf.1
    rw [hkey, hcount] at hcm
    have hgt : 1 < p.2.1 := by simpa using hpf.2
    omega
  · intro h
    have hpos : 0 < tallyCount ((allEntities history).foldl bumpEntity []) k := by
      rw [hcount]; omega
    obtain ⟨p, hp, hk1, hk2⟩ := exists_mem_of_tallyCount_pos _ k hpos
    refine ⟨p.2.2, List.mem_map.mpr ⟨p, List.mem_filter.mpr ⟨hp, ?_⟩, rfl⟩, ?_⟩
    · rw [hcount] at hk2
      simpa using hk2 ▸ h
    · rw [hd p hp, hk1]

theorem extract_time_range_context_eq_none (history : List QueryEntry) :
    extract_time_range_context history = none ↔
      ∀ q ∈ history, q.time_range = none := by
  simp [extract_time_range_context, List.findSome?_eq_none_iff]

theorem extract_time_range_context_most_recent (l₁ l₂ : List QueryEntry)
    (q : QueryEntry) (r : TimeRange) (hq : q.time_range = some r)
    (h2 : ∀ q' ∈ l₂, q'.time_range = none) :
    extract_time_range_context (l₁ ++ q :: l₂) = some r := by
  unfold extract_time_range_context
  rw [List.reverse_append, List.reverse_cons, List.findSome?_append,
      List.findSome?_append]
  have hnone : l₂.reverse.findSome? (fun q => q.time_range) = none := by
    rw [List.findSome?_eq_none_iff]
    intro x hx
    exact h2 x (List.mem_reverse.mp hx)
  rw [hnone]
  simp [List.findSome?_cons, hq]

theorem dedup_fold_mem (new : List String) :
    ∀ (ms : List String) (m : String),
      m ∈ new.foldl (fun ms m' => if ms.contains m' then ms else ms ++ [m']) ms ↔
        m ∈ ms ∨ m ∈ new := by
  induction new with
  | nil => simp
  | cons x new ih =>
    intro ms m
    rw [List.foldl_cons]
    by_cases hx : ms.contains x = true
    · rw [if_pos hx, ih]
      have hmem : x ∈ ms := by simpa using hx
      constructor
      · rintro (h | h)
        · exact Or.inl h
        · exact Or.inr (List.mem_cons_of_mem x h)
      · rintro (h | h)
        · exact Or.inl h
        · rcases List.mem_cons.mp h with rfl | h
          · exact Or.inl hmem
          · exact Or.inr h
    · rw [if_neg hx, ih]
      constructor
      · rintro (h | h)
        · rcases List.mem_append.mp h with h | h
          · exact Or.inl h
          · exact Or.inr (List.mem_cons.mpr (Or.inl (List.mem_singleton.mp h)))
        · exact Or.inr (List.mem_cons_of_mem x h)
      · rintro (h | h)
        · exact Or.inl (List.mem_append.mpr (Or.inl h))
        · rcases List.mem_cons.mp h with rfl | h
          · exact Or.inl (List.mem_append.mpr (Or.inr (List.mem_singleton.mpr rfl)))
          · exact Or.inr h

theorem dedup_fold_nodup (new : List String) :
    ∀ ms : List String, ms.Nodup →
      (new.foldl (fun ms m' => if ms.contains m' then ms else ms ++ [m']) ms).Nodup := by
  induction new with
  | nil => exact fun ms h => h
  | cons x new ih =>
    intro ms h
    rw [List.foldl_cons]
    by_cases hx : ms.contains x = true
    · rw [if_pos hx]
      exact ih ms h
    · rw [if_neg hx]
      refine ih _ (List.Nodup.append h (List.nodup_singleton x) ?_)
      intro y hy hxy
      rw [List.mem_singleton.mp hxy] at hy
      exact hx (by simpa using hy)

/-- `_extract_metric_context` returns a duplicate-free list containing exactly
the metrics occurring in the slice. -/
theorem extract_metric_context_spec (history : List QueryEntry) :
    (extract_metric_context history).Nodup ∧
    ∀ m, m ∈ extract_metric_context history ↔ ∃ q ∈ history, m ∈ q.metrics := by
  have main : ∀ (l : List QueryEntry) (ms : List String), ms.Nodup →
      (l.foldl (fun ms q =>
        q.metrics.foldl (fun ms m => if ms.contains m then ms else ms ++ [m]) ms)
        ms).Nodup ∧
      ∀ m, m ∈ l.foldl (fun ms q =>
          q.metrics.foldl (fun ms m => if ms.contains m then ms else ms ++ [m]) ms)
          ms ↔
        m ∈ ms ∨ ∃ q ∈ l, m ∈ q.metrics := by
    intro l
    induction l with
    | nil => intro ms h; exact ⟨h, by simp⟩
    | cons q l ihl =>
      intro ms h
      rw [List.foldl_cons]
      obtain ⟨hn, hm⟩ := ihl _ (dedup_fold_nodup q.metrics ms h)
      refine ⟨hn, fun m => ?_⟩
      rw [hm m, dedup_fold_mem q.metrics ms m]
      constructor
      · rintro ((h' | h') | h')
        · exact Or.inl h'
        · exact Or.inr ⟨q, List.mem_cons_self q l, h'⟩
        · obtain ⟨q', hq', hmq⟩ := h'
          exact Or.inr ⟨q', List.mem_cons_of_mem q hq', hmq⟩
      · rintro (h' | ⟨q', hq', hmq⟩)
        · exact Or.inl (Or.inl h')
        · rcases List.mem_cons.mp hq' with rfl | hq'
          · exact Or.inl (Or.inr hmq)
          · exact Or.inr ⟨q', hq', hmq⟩
  obtain ⟨hn, hm⟩ := main history.reverse [] List.nodup_nil
  refine ⟨hn, fun m => ?_⟩
  unfold extract_metric_context
  rw [hm m]
  simp [List.mem_reverse]

/-- Amended C8: for a session with non-empty stored history,
`extract_context_for_query` returns the last query entry; the common entities
are exactly those whose `type:value` key occurs more than once among the
entity occurrences of the last 3 entries (not "in at least 2 entries" — a key
repeated inside one entry also qualifies); the time-range context is empty iff
no entry of the last 3 has one, and equals the most recent time range present
in the last 3 entries; and the metric context is a duplicate-free list holding
exactly the metrics of the last 3 entries. -/
theorem extract_for_query_characterization (history : List QueryEntry)
    (hne : history ≠ []) :
    (extract_context_for_query history).last_query = some (history.getLast hne) ∧
    (∀ k : String,
      (∃ e ∈ (extract_context_for_query history).recent_entities, entityKey e = k) ↔
        1 < countKey k (allEntities (lastN 3 history))) ∧
    ((extract_context_for_query history).time_range_context = none ↔
      ∀ q ∈ lastN 3 history, q.time_range = none) ∧
    (∀ (l₁ l₂ : List QueryEntry) (q : QueryEntry) (r : TimeRange),
      lastN 3 history = l₁ ++ q :: l₂ → q.time_range = some r →
      (∀ q' ∈ l₂, q'.time_range = none) →
      (extract_context_for_query history).time_range_context = some r) ∧
    (extract_context_for_query history).metric_context.Nodup ∧
    (∀ m : String, m ∈ (extract_context_for_query history).metric_context ↔
      ∃ q ∈ lastN 3 history, m ∈ q.metrics) ∧
    (extract_context_for_query history).query_count = history.length := by
  refine ⟨?_, ?_, ?_, ?_, ?_, ?_, rfl⟩
  · simp only [extract_context_for_query]
    exact List.getLast?_eq_getLast history hne
  · exact fun k => extract_common_entities_key_mem (lastN 3 history) k
  · exact extract_time_range_context_eq_none (lastN 3 history)
  · intro l₁ l₂ q r hsplit hq h2
    simp only [extract_context_for_query]
    rw [hsplit]
    exact extract_time_range_context_most_recent l₁ l₂ q r hq h2
  · exact (extract_metric_context_spec (lastN 3 history)).1
  · exact (extract_metric_context_spec (lastN 3 history)).2

/-- Witness for the amended C8 on a two-entry history sharing the entity
`ASSET:BTC`: the shared entity key is common (its key count over the last 3
entries is 2), the metric context is duplicate-free, and the most recent time
range (held by the first entry, the second having none) is returned. -/
theorem extract_for_query_characterization_witness :
    ((∃ e ∈ (extract_context_for_query
        [({ query := "price of btc",
            entities := [{ entity_type := "ASSET", value := "BTC" }],
            time_range := some { start_time := 0, end_time := 10 },
            metrics := ["price"] } : QueryEntry),
         ({ query := "and its volume",
            entities := [{ entity_type := "ASSET", value := "BTC" }],
            time_range := none,
            metrics := ["volume", "price"] } : QueryEntry)]).recent_entities,
        entityKey e = "ASSET:BTC") ↔
      1 < countKey "ASSET:BTC" (allEntities (lastN 3
        [({ query := "price of btc",
            entities := [{ entity_type := "ASSET", value := "BTC" }],
            time_range := some { start_time := 0, end_time := 10 },
            metrics := ["price"] } : QueryEntry),
         ({ query := "and its volume",
            entities := [{ entity_type := "ASSET", value := "BTC" }],
            time_range := none,
            metrics := ["volume", "price"] } : QueryEntry)]))) ∧
    (extract_context_for_query
        [({ query := "price of btc",
            entities := [{ entity_type := "ASSET", value := "BTC" }],
            time_range := some { start_time := 0, end_time := 10 },
            metrics := ["price"] } : QueryEntry),
         ({ query := "and its volume",
            entities := [{ entity_type := "ASSET", value := "BTC" }],
            time_range := none,
            metrics := ["volume", "price"] } : QueryEntry)]).time_range_context =
      some { start_time := 0, end_time := 10 } :=
  ⟨(extract_for_query_characterization _ (by simp)).2.1 "ASSET:BTC",
   (extract_for_query_characterization _ (by simp)).2.2.2.1
     []
     [{ query := "and its volume",
        entities := [{ entity_type := "ASSET", value := "BTC" }],
        time_range := none,
        metrics := ["volume", "price"] }]
     { query := "price of btc",
       entities := [{ entity_type := "ASSET", value := "BTC" }],
       time_range := some { start_time := 0, end_time := 10 },
       metrics := ["price"] }
     { start_time := 0, end_time := 10 }
     rfl rfl (by decide)⟩

end Chimera
